import Mathlib

/-!
Shallow embedding of the mental-health chatbot core (app.py):
the text-normalization, crisis-detection, sentiment-bucketing and
reply-selection pipeline, and the SQLite-backed conversation store.

Modelling conventions:
* Text is `List Char` (`Text`); Python string operations become list
  operations.  `str.lower` is modelled by `Char.toLower` (basic-latin
  lowercasing), `str.strip` / regex `\s` by the ASCII whitespace set.
* The VADER sentiment analyzer is an external collaborator; it is passed
  in as a function `scorer : Text → ℚ` producing the compound score.
  The code applies it to the preprocessed text (`sentiment_scores`).
* `random.choice` is modelled by injected indices (`Choices`), one per
  fixed pool, as the spec requires randomness behind an injectable source.
* The `messages` table is a list of `Row` in insertion order; the
  AUTOINCREMENT id and the monotone UTC timestamp are both modelled by
  the row count at insertion time, so `ORDER BY id DESC` is list reversal.
-/

abbrev Text := List Char

/-- The ASCII whitespace characters matched by Python\x27s `\s` and `str.strip`. -/
def isPySpace (c : Char) : Bool :=
  c == ' ' || c == '\t' || c == '\n' || c == '\r' || c == '\x0b' || c == '\x0c'

/-- Worker for `re.sub(r&whitespace-run&, ' ', ...)`: replaces each maximal
run of whitespace by a single space; the flag records whether we are inside
a run whose replacement space has already been emitted. -/
def collapseAux : Bool → Text → Text
  | _, [] => []
  | b, c :: cs =>
    if isPySpace c then
      if b then collapseAux true cs else ' ' :: collapseAux true cs
    else c :: collapseAux false cs

def collapseWS (l : Text) : Text := collapseAux false l

/-- Python `str.strip`: drop whitespace from both ends. -/
def stripText (l : Text) : Text :=
  ((l.dropWhile isPySpace).reverse.dropWhile isPySpace).reverse

/-- `preprocess` (app.py line 73): `re.sub(r'\s+', ' ', text.lower().strip())`. -/
def preprocess (text : Text) : Text :=
  collapseWS (stripText (text.map Char.toLower))

/-- `CRISIS_KEYWORDS` (app.py lines 26-29). -/
def CRISIS_KEYWORDS : List Text :=
  [("suicide").toList, ("kill myself").toList, ("end my life").toList,
   ("harm myself").toList, ("want to die").toList,
   ("i can\x27t go on").toList, ("i cant go on").toList]

/-- `COMMON_KEYWORDS` (app.py lines 31-37), in Python dict insertion order. -/
def COMMON_KEYWORDS : List (Text × List Text) :=
  [(("stress").toList, [("stress").toList, ("stressed").toList, ("overwhelmed").toList]),
   (("anxiety").toList, [("anxious").toList, ("anxiety").toList, ("panic").toList, ("worry").toList]),
   (("depressed").toList, [("depress").toList, ("sad").toList, ("unhappy").toList, ("hopeless").toList, ("down").toList]),
   (("sleep").toList, [("insomnia").toList, ("sleep").toList, ("tired").toList, ("sleeping").toList]),
   (("exam").toList, [("exam").toList, ("test").toList, ("interview").toList, ("deadline").toList])]

/-- `POSITIVE_RESPONSES` (app.py lines 39-43). -/
def POSITIVE_RESPONSES : List Text :=
  [("That\x27s wonderful to hear — keep that energy going! Anything you want to celebrate?").toList,
   ("Awesome! I\x27m glad things are going well. Want to share more?").toList,
   ("Great! Celebrating small wins is powerful — tell me one thing that went well today.").toList]

/-- `NEUTRAL_RESPONSES` (app.py lines 45-49). -/
def NEUTRAL_RESPONSES : List Text :=
  [("I see. Tell me a bit more about what\x27s on your mind.").toList,
   ("Okay — would you like a breathing exercise or a quick mood check?").toList,
   ("I understand. Want to try a short grounding exercise together?").toList]

/-- `NEGATIVE_RESPONSES` (app.py lines 51-55). -/
def NEGATIVE_RESPONSES : List Text :=
  [("I\x27m sorry you\x27re feeling this way. Would you like a simple breathing exercise or a coping tip?").toList,
   ("That sounds tough. I\x27m here for you — do you want a grounding exercise or a small distraction?").toList,
   ("I\x27m listening. If you want, we can try a 1-minute breathing exercise together.").toList]

/-- `COPING_TIPS` (app.py lines 57-62). -/
def COPING_TIPS : List Text :=
  [("Try the 4-4-4 breathing: inhale 4s, hold 4s, exhale 4s. Do this for 1-2 minutes.").toList,
   ("Take a short walk, even 5–10 minutes. Movement can help reset your mood.").toList,
   ("Write down 3 things you did well today — little wins matter.").toList,
   ("Listen to a calming song you like for 5 minutes or try a guided breathing app.").toList]

/-- `CRISIS_MESSAGE` (app.py lines 64-68). -/
def CRISIS_MESSAGE : Text :=
  ("I’m really sorry you’re feeling this way. If you are in immediate danger or think you might harm yourself, please contact your local emergency services right now. If you can, reach out to someone you trust or a mental health professional.").toList

/-- ASCII word character, regex `\w`: letters, digits, underscore.
(Python\x27s `\w` additionally covers non-ASCII word characters; as with
lowercasing and whitespace, the model is the ASCII restriction.) -/
def isWordChar (c : Char) : Bool := c.isAlphanum || c == '_'

/-- One position of `re.search(r'\b<kw>\b', t)`: the keyword occurs at
index `i` and, since every crisis keyword starts and ends with a word
character, the boundary holds iff the neighbouring character (when it
exists) is not a word character. -/
def matchAt (kw t : Text) (i : Nat) : Bool :=
  ((t.drop i).take kw.length == kw)
  && (i == 0 || !isWordChar (t.getD (i - 1) ' '))
  && (i + kw.length == t.length || !isWordChar (t.getD (i + kw.length) ' '))

def hasWordBoundedMatch (kw t : Text) : Bool :=
  (List.range (t.length + 1)).any (matchAt kw t)

/-- Body of `contains_crisis` after `t = preprocess(text)` (app.py line 81). -/
def contains_crisis_norm (t : Text) : Bool :=
  CRISIS_KEYWORDS.any (fun kw => hasWordBoundedMatch kw t)

/-- `contains_crisis` (app.py lines 79-81). -/
def contains_crisis (text : Text) : Bool :=
  contains_crisis_norm (preprocess text)

/-- Python substring containment `w in t`. -/
def isSub (w t : Text) : Bool :=
  match t with
  | [] => w == []
  | c :: ts => w.isPrefixOf (c :: ts) || isSub w ts

/-- Body of `extract_tags` after `t = preprocess(text)` (app.py line 85). -/
def extract_tags_norm (t : Text) : List Text :=
  (COMMON_KEYWORDS.filter (fun p => p.2.any (fun w => isSub w t))).map Prod.fst

/-- `extract_tags` (app.py lines 83-85). -/
def extract_tags (text : Text) : List Text :=
  extract_tags_norm (preprocess text)

/-- `sentiment_scores` (app.py lines 76-77) restricted to the compound
field, with the VADER analyzer `sia` injected as `scorer`. -/
def sentiment_scores (scorer : Text → ℚ) (text : Text) : ℚ :=
  scorer (preprocess text)

/-- Injected stand-ins for the four `random.choice` calls. -/
structure Choices where
  pos : Fin 3
  neu : Fin 3
  neg : Fin 3
  tip : Fin 4

/-- `pick_response` (app.py lines 87-92) with the random index injected. -/
def pick_response (sentiment : String) (ch : Choices) : Text :=
  if sentiment = "positive" then POSITIVE_RESPONSES.get ⟨ch.pos.val, ch.pos.isLt⟩
  else if sentiment = "neutral" then NEUTRAL_RESPONSES.get ⟨ch.neu.val, ch.neu.isLt⟩
  else NEGATIVE_RESPONSES.get ⟨ch.neg.val, ch.neg.isLt⟩

/-- `get_coping_tip` (app.py lines 94-95) with the random index injected. -/
def get_coping_tip (ch : Choices) : Text :=
  COPING_TIPS.get ⟨ch.tip.val, ch.tip.isLt⟩

/-- The sentiment-bucketing branch (app.py lines 180-185). -/
def bucket (compound : ℚ) : String :=
  if compound ≥ mkRat 5 100 then "positive"
  else if compound ≤ mkRat (-5) 100 then "negative"
  else "neutral"

/-- One row of the `messages` table (app.py lines 102-111). -/
structure Row where
  id : Nat
  user : String
  role : String
  text : Text
  compound : Option ℚ
  timestamp : Nat
deriving DecidableEq

/-- `save_message` (app.py lines 115-122): insert one row; the
AUTOINCREMENT id and the write-time timestamp are the current row count. -/
def save_message (db : List Row) (user role : String) (text : Text)
    (compound : Option ℚ) : List Row :=
  db ++ [⟨db.length, user, role, text, compound, db.length⟩]

/-- The rows selected by `get_history`, before column projection:
`WHERE user = ? ORDER BY id DESC LIMIT ?` then `list(reversed(rows))`
(app.py lines 124-133). -/
def historyRows (db : List Row) (user : String) (limit : Nat) : List Row :=
  ((db.filter (fun r => r.user == user)).reverse.take limit).reverse

/-- `get_history` (app.py lines 124-133): the selected columns are
`(role, text, compound, timestamp)`. -/
def get_history (db : List Row) (user : String) (limit : Nat) :
    List (String × Text × Option ℚ × Nat) :=
  (historyRows db user limit).map (fun r => (r.role, r.text, r.compound, r.timestamp))

/-- An interleaving of `save_message` calls starting from an empty table:
each op is `(user, role, text, compound)`. -/
def runOps (ops : List (String × String × Text × Option ℚ)) : List Row :=
  ops.foldl (fun db o => save_message db o.1 o.2.1 o.2.2.1 o.2.2.2) []

/-- The tag sentence appended for a tagged neutral reply (app.py line 193). -/
def tagSuffix (tags : List Text) : Text :=
  (" I noticed you\x27re talking about ").toList
    ++ List.intercalate ((", ").toList) tags
    ++ (". Want tips related to that?").toList

/-- Result of one Send turn: the updated table and the bot reply. -/
structure TurnResult where
  db : List Row
  bot_text : Text
deriving DecidableEq

/-- The Send handler (app.py lines 169-196): score, store the user row,
crisis override or bucket-and-reply, store the bot row. -/
def sendHandler (scorer : Text → ℚ) (ch : Choices) (db : List Row)
    (username : String) (user_input : Text) : TurnResult :=
  let compound := sentiment_scores scorer user_input
  let db1 := save_message db username "user" user_input (some compound)
  if contains_crisis user_input = true ∨ compound ≤ mkRat (-85) 100 then
    ⟨save_message db1 username "bot" CRISIS_MESSAGE none, CRISIS_MESSAGE⟩
  else
    let sentiment := bucket compound
    let tags := extract_tags user_input
    let base := pick_response sentiment ch
    let bot_text :=
      if sentiment = "negative" then base ++ (" Tip: ").toList ++ get_coping_tip ch
      else if sentiment = "neutral" ∧ tags ≠ [] then base ++ tagSuffix tags
      else base
    ⟨save_message db1 username "bot" bot_text none, bot_text⟩

example : preprocess (("  Hello   WORLD  ").toList) = ("hello world").toList := by decide

example : contains_crisis (("I want to end my life").toList) = true := by decide

example : contains_crisis (("the suicidead word").toList) = false := by decide

example : extract_tags (("I feel so stressed about my exam tomorrow").toList)
    = [("stress").toList, ("exam").toList] := by decide

/-! ### Lemmas about normalization -/

theorem toNat_ofNat_valid (n : Nat) (h : n.isValidChar) : (Char.ofNat n).toNat = n := by
  unfold Char.ofNat
  rw [dif_pos h]
  rfl

theorem toLower_eq (c : Char) :
    c.toLower = if c.toNat ≥ 65 ∧ c.toNat ≤ 90 then Char.ofNat (c.toNat + 32) else c := rfl

theorem toLower_toLower (c : Char) : c.toLower.toLower = c.toLower := by
  rw [toLower_eq c]
  by_cases h : c.toNat ≥ 65 ∧ c.toNat ≤ 90
  · rw [if_pos h, toLower_eq,
      toNat_ofNat_valid (c.toNat + 32) (Or.inl (by omega)), if_neg (by omega)]
  · rw [if_neg h, toLower_eq, if_neg h]

theorem map_toLower_fix : ∀ (l : Text), (∀ c ∈ l, c.toLower = c) → l.map Char.toLower = l
  | [], _ => rfl
  | c :: cs, h => by
    simp only [List.map_cons]
    rw [h c (List.mem_cons_self c cs),
      map_toLower_fix cs (fun d hd => h d (List.mem_cons_of_mem c hd))]

theorem mem_collapseAux {c : Char} : ∀ (b : Bool) (l : Text),
    c ∈ collapseAux b l → c = ' ' ∨ c ∈ l := by
  intro b l
  induction l generalizing b with
  | nil => intro h; simp [collapseAux] at h
  | cons a as ih =>
    intro h
    unfold collapseAux at h
    split at h
    · split at h
      · rcases ih _ h with h1 | h1
        · exact Or.inl h1
        · exact Or.inr (List.mem_cons_of_mem a h1)
      · rcases List.mem_cons.mp h with h1 | h1
        · exact Or.inl h1
        · rcases ih _ h1 with h2 | h2
          · exact Or.inl h2
          · exact Or.inr (List.mem_cons_of_mem a h2)
    · rcases List.mem_cons.mp h with h1 | h1
      · exact Or.inr (h1 ▸ List.mem_cons_self a as)
      · rcases ih _ h1 with h2 | h2
        · exact Or.inl h2
        · exact Or.inr (List.mem_cons_of_mem a h2)

theorem mem_stripText {c : Char} {l : Text} (h : c ∈ stripText l) : c ∈ l := by
  unfold stripText at h
  rw [List.mem_reverse] at h
  have h2 : c ∈ (l.dropWhile isPySpace).reverse :=
    List.Sublist.mem h (List.dropWhile_sublist _)
  rw [List.mem_reverse] at h2
  exact List.Sublist.mem h2 (List.dropWhile_sublist _)

theorem collapseAux_idem : ∀ (l : Text) (b : Bool),
    collapseAux b (collapseAux b l) = collapseAux b l := by
  intro l
  induction l with
  | nil => intro b; rfl
  | cons a as ih =>
    intro b
    by_cases ha : isPySpace a = true
    · cases b with
      | true =>
        have e1 : collapseAux true (a :: as) = collapseAux true as := by
          simp [collapseAux, ha]
        rw [e1, ih true]
      | false =>
        have e1 : collapseAux false (a :: as) = ' ' :: collapseAux true as := by
          simp [collapseAux, ha]
        have e2 : collapseAux false (' ' :: collapseAux true as)
            = ' ' :: collapseAux true (collapseAux true as) := by
          have hsp : isPySpace ' ' = true := by decide
          simp [collapseAux, hsp]
        rw [e1, e2, ih true]
    · have e1 : collapseAux b (a :: as) = a :: collapseAux false as := by
        simp [collapseAux, ha]
      have e2 : collapseAux b (a :: collapseAux false as)
          = a :: collapseAux false (collapseAux false as) := by
        simp [collapseAux, ha]
      rw [e1, e2, ih false]

theorem head?_dropWhile (p : Char → Bool) : ∀ (l : Text) (c : Char),
    (l.dropWhile p).head? = some c → p c = false := by
  intro l
  induction l with
  | nil => intro c h; simp at h
  | cons a as ih =>
    intro c h
    rw [List.dropWhile_cons] at h
    split at h
    · exact ih c h
    · next hpa =>
      have : a = c := by simpa using h
      rw [← this]
      simpa using hpa

theorem dropWhile_eq_self_of_head? (p : Char → Bool) (l : Text)
    (h : ∀ c, l.head? = some c → p c = false) : l.dropWhile p = l := by
  cases l with
  | nil => rfl
  | cons a as =>
    rw [List.dropWhile_cons, if_neg (by simp [h a rfl])]

theorem collapseAux_true_nil : ∀ (as : Text), collapseAux true as = [] →
    ∀ c ∈ as, isPySpace c = true := by
  intro as
  induction as with
  | nil => intro _ c hc; cases hc
  | cons a l ih =>
    intro h c hc
    by_cases ha : isPySpace a = true
    · simp only [collapseAux, ha, if_true] at h
      rcases List.mem_cons.mp hc with rfl | hc2
      · exact ha
      · exact ih h c hc2
    · simp [collapseAux, ha] at h

theorem getLast?_collapseAux : ∀ (l : Text) (b : Bool) (c : Char),
    (collapseAux b l).getLast? = some c → isPySpace c = true →
    ∃ d, l.getLast? = some d ∧ isPySpace d = true := by
  intro l
  induction l with
  | nil => intro b c h _; simp [collapseAux] at h
  | cons a as ih =>
    intro b c h hc
    by_cases ha : isPySpace a = true
    · cases b with
      | true =>
        simp only [collapseAux, ha, if_true] at h
        obtain ⟨d, hd, hds⟩ := ih true c h hc
        refine ⟨d, ?_, hds⟩
        cases as with
        | nil => simp at hd
        | cons x xs => rw [List.getLast?_cons_cons]; exact hd
      | false =>
        simp only [collapseAux, ha, if_true, Bool.false_eq_true, if_false] at h
        cases hX : collapseAux true as with
        | nil =>
          rw [hX] at h
          have hc2 : c = ' ' := by simpa using h.symm
          cases hLast : (a :: as).getLast? with
          | none => simp at hLast
          | some d =>
            refine ⟨d, rfl, ?_⟩
            have hmem : d ∈ a :: as := List.mem_of_getLast?_eq_some hLast
            rcases List.mem_cons.mp hmem with rfl | hmem2
            · exact ha
            · exact collapseAux_true_nil as hX d hmem2
        | cons x xs =>
          rw [hX, List.getLast?_cons_cons, ← hX] at h
          obtain ⟨d, hd, hds⟩ := ih true c h hc
          cases as with
          | nil => simp at hd
          | cons y ys =>
            exact ⟨d, by rw [List.getLast?_cons_cons]; exact hd, hds⟩
    · have e1 : collapseAux b (a :: as) = a :: collapseAux false as := by
        simp [collapseAux, ha]
      rw [e1] at h
      cases hX : collapseAux false as with
      | nil =>
        rw [hX] at h
        have : a = c := by simpa using h
        rw [this] at ha
        exact absurd hc ha
      | cons x xs =>
        rw [hX, List.getLast?_cons_cons, ← hX] at h
        obtain ⟨d, hd, hds⟩ := ih false c h hc
        cases as with
        | nil => simp at hd
        | cons y ys =>
          exact ⟨d, by rw [List.getLast?_cons_cons]; exact hd, hds⟩

theorem head?_collapseAux_false (l : Text)
    (hh : ∀ c, l.head? = some c → isPySpace c = false) :
    ∀ c, (collapseAux false l).head? = some c → isPySpace c = false := by
  intro c h
  cases l with
  | nil => simp [collapseAux] at h
  | cons a as =>
    have ha : isPySpace a = false := hh a rfl
    simp [collapseAux, ha] at h
    rw [← h]
    exact ha

theorem head?_eq_of_pref {l₁ l₂ : Text} (h : l₁ <+: l₂) {c : Char}
    (hc : l₁.head? = some c) : l₂.head? = some c := by
  obtain ⟨t, rfl⟩ := h
  rw [List.head?_append, hc]
  rfl

theorem stripText_head? (l : Text) (c : Char)
    (h : (stripText l).head? = some c) : isPySpace c = false := by
  have hpref : stripText l <+: l.dropWhile isPySpace := by
    have h2 := (List.dropWhile_suffix (p := isPySpace)
      (l := (l.dropWhile isPySpace).reverse)).reverse
    rwa [List.reverse_reverse] at h2
  exact head?_dropWhile isPySpace l c (head?_eq_of_pref hpref h)

theorem stripText_getLast? (l : Text) (c : Char)
    (h : (stripText l).getLast? = some c) : isPySpace c = false := by
  unfold stripText at h
  rw [List.getLast?_reverse] at h
  exact head?_dropWhile isPySpace _ c h

theorem stripText_eq_self (l : Text)
    (hh : ∀ c, l.head? = some c → isPySpace c = false)
    (hl : ∀ c, l.getLast? = some c → isPySpace c = false) : stripText l = l := by
  unfold stripText
  rw [dropWhile_eq_self_of_head? isPySpace l hh,
    dropWhile_eq_self_of_head? isPySpace l.reverse
      (fun c hc => hl c (by rwa [List.head?_reverse] at hc)),
    List.reverse_reverse]

theorem preprocess_idem (t : Text) : preprocess (preprocess t) = preprocess t := by
  have hmap : (preprocess t).map Char.toLower = preprocess t := by
    apply map_toLower_fix
    intro c hc
    rcases mem_collapseAux false (stripText (t.map Char.toLower)) hc with rfl | hmem
    · decide
    · have h2 := mem_stripText hmem
      rcases List.mem_map.mp h2 with ⟨d, _, rfl⟩
      exact toLower_toLower d
  have hstrip : stripText (preprocess t) = preprocess t := by
    apply stripText_eq_self
    · intro c hc
      exact head?_collapseAux_false (stripText (t.map Char.toLower))
        (fun d hd => stripText_head? (t.map Char.toLower) d hd) c hc
    · intro c hc
      by_cases hcs : isPySpace c = true
      · obtain ⟨d, hd, hds⟩ :=
          getLast?_collapseAux (stripText (t.map Char.toLower)) false c hc hcs
        have h3 := stripText_getLast? (t.map Char.toLower) d hd
        rw [h3] at hds
        cases hds
      · simpa using hcs
  calc preprocess (preprocess t)
      = collapseWS (stripText ((preprocess t).map Char.toLower)) := rfl
    _ = collapseWS (preprocess t) := by rw [hmap, hstrip]
    _ = preprocess t := collapseAux_idem (stripText (t.map Char.toLower)) false

/-! ### Claim theorems -/

/-- C10: `preprocess` is idempotent, and consequently crisis detection and
tag extraction are invariant under normalization: applying them to the
already-normalized text gives the same answer as applying them to the raw
text. -/
theorem claim_C10_preprocess_idempotent (t : Text) :
    preprocess (preprocess t) = preprocess t ∧
    contains_crisis (preprocess t) = contains_crisis t ∧
    extract_tags (preprocess t) = extract_tags t := by
  refine ⟨preprocess_idem t, ?_, ?_⟩
  · unfold contains_crisis
    rw [preprocess_idem t]
  · unfold extract_tags
    rw [preprocess_idem t]

/-- C2: for every compound score the bucket is "positive" iff s ≥ 0.05,
"negative" iff s ≤ -0.05 and "neutral" otherwise; in particular
0.05 ↦ positive, 0.0499 ↦ neutral, -0.05 ↦ negative, -0.0499 ↦ neutral. -/
theorem claim_C2_bucket_thresholds :
    (∀ s : ℚ, (bucket s = "positive" ↔ mkRat 5 100 ≤ s) ∧
      (bucket s = "negative" ↔ s ≤ mkRat (-5) 100) ∧
      (bucket s = "neutral" ↔ mkRat (-5) 100 < s ∧ s < mkRat 5 100)) ∧
    bucket (mkRat 5 100) = "positive" ∧
    bucket (mkRat 499 10000) = "neutral" ∧
    bucket (mkRat (-5) 100) = "negative" ∧
    bucket (mkRat (-499) 10000) = "neutral" := by
  refine ⟨?_, by decide, by decide, by decide, by decide⟩
  intro s
  unfold bucket
  by_cases h1 : s ≥ mkRat 5 100
  · rw [if_pos h1]
    refine ⟨⟨fun _ => h1, fun _ => rfl⟩, ⟨fun h => absurd h (by decide), ?_⟩,
      ⟨fun h => absurd h (by decide), ?_⟩⟩
    · intro h
      exact absurd (le_trans h1 h) (by decide)
    · rintro ⟨-, hlt⟩
      exact absurd h1 (not_le.mpr hlt)
  · rw [if_neg h1]
    by_cases h2 : s ≤ mkRat (-5) 100
    · rw [if_pos h2]
      refine ⟨⟨fun h => absurd h (by decide), fun h => absurd (le_trans h h2) (by decide)⟩,
        ⟨fun _ => h2, fun _ => rfl⟩,
        ⟨fun h => absurd h (by decide), ?_⟩⟩
      rintro ⟨hgt, -⟩
      exact absurd h2 (not_le.mpr hgt)
    · rw [if_neg h2]
      exact ⟨⟨fun h => absurd h (by decide), fun h => absurd h h1⟩,
        ⟨fun h => absurd h (by decide), fun h => absurd h h2⟩,
        ⟨fun _ => ⟨not_le.mp h2, not_le.mp h1⟩, fun _ => rfl⟩⟩

/-- C4: `extract_tags` returns exactly the topic names of `COMMON_KEYWORDS`
one of whose substrings occurs (plain containment) in the normalized text,
in the mapping's declaration order (stress, anxiety, depressed, sleep, exam). -/
theorem claim_C4_extract_tags (text : Text) :
    (∀ tag : Text, tag ∈ extract_tags text ↔
      ∃ ws, (tag, ws) ∈ COMMON_KEYWORDS ∧ ∃ w ∈ ws, isSub w (preprocess text) = true) ∧
    (extract_tags text).Sublist (COMMON_KEYWORDS.map Prod.fst) ∧
    COMMON_KEYWORDS.map Prod.fst =
      [("stress").toList, ("anxiety").toList, ("depressed").toList,
       ("sleep").toList, ("exam").toList] := by
  refine ⟨?_, ?_, by decide⟩
  · intro tag
    unfold extract_tags extract_tags_norm
    constructor
    · intro h
      rcases List.mem_map.mp h with ⟨p, hp, rfl⟩
      rcases List.mem_filter.mp hp with ⟨hpCK, hpw⟩
      rw [List.any_eq_true] at hpw
      exact ⟨p.2, hpCK, hpw⟩
    · rintro ⟨ws, hmem, w, hw, hsub⟩
      apply List.mem_map.mpr
      refine ⟨(tag, ws), List.mem_filter.mpr ⟨hmem, ?_⟩, rfl⟩
      rw [List.any_eq_true]
      exact ⟨w, hw, hsub⟩
  · exact List.Sublist.map Prod.fst (List.filter_sublist _)

theorem sendHandler_rows (scorer : Text → ℚ) (ch : Choices) (db : List Row)
    (u : String) (text : Text) :
    (sendHandler scorer ch db u text).db =
      db ++ [⟨db.length, u, "user", text, some (sentiment_scores scorer text), db.length⟩,
        ⟨db.length + 1, u, "bot", (sendHandler scorer ch db u text).bot_text, none,
          db.length + 1⟩] := by
  by_cases hc : contains_crisis text = true ∨ sentiment_scores scorer text ≤ mkRat (-85) 100
  · simp [sendHandler, hc, save_message]
  · simp [sendHandler, hc, save_message]

theorem rev_take_rev_suffix (l : List Row) (n : Nat) : (l.reverse.take n).reverse <:+ l := by
  have h := (List.take_prefix n l.reverse).reverse
  rwa [List.reverse_reverse] at h

/-- C5: `get_history` returns at most `limit` rows, they are a suffix (the
most recently inserted part, in ascending insertion order) of the user's
rows, and after a `save_message` the history with limit 1 is exactly the
just-appended row (projected to the selected columns). -/
theorem claim_C5_history (db : List Row) (u role : String) (text : Text)
    (s : Option ℚ) (limit : Nat) :
    (get_history db u limit).length ≤ limit ∧
    (get_history db u limit).length =
      min limit (db.filter (fun r => r.user == u)).length ∧
    historyRows db u limit <:+ db.filter (fun r => r.user == u) ∧
    get_history (save_message db u role text s) u 1 =
      [(role, text, s, db.length)] := by
  refine ⟨?_, ?_, rev_take_rev_suffix _ _, ?_⟩
  · simp [get_history, historyRows]
  · simp [get_history, historyRows]
  · simp [get_history, historyRows, save_message, List.filter_append]

theorem historyRows_user (db : List Row) (u : String) (limit : Nat) (r : Row)
    (hr : r ∈ historyRows db u limit) : r.user = u := by
  unfold historyRows at hr
  rw [List.mem_reverse] at hr
  have h2 := List.Sublist.mem hr (List.take_sublist _ _)
  rw [List.mem_reverse] at h2
  have h3 := List.mem_filter.mp h2
  simpa using h3.2

/-- C6: with any interleaving of appends by two distinct users, the history
of the first user never contains a row belonging to the second. -/
theorem claim_C6_user_isolation (ops : List (String × String × Text × Option ℚ))
    (u₁ u₂ : String) (limit : Nat) (r : Row) (hne : u₁ ≠ u₂)
    (hr : r ∈ historyRows (runOps ops) u₁ limit) : r.user ≠ u₂ := by
  rw [historyRows_user (runOps ops) u₁ limit r hr]
  exact hne

theorem claim_C6_witness :
    (("alice" : String) ≠ "bob") ∧
    ((⟨0, "alice", "user", ("hi").toList, some (mkRat 1 10), 0⟩ : Row) ∈
      historyRows (runOps [("alice", "user", ("hi").toList, some (mkRat 1 10)),
        ("bob", "user", ("yo").toList, none)]) "alice" 5) ∧
    (⟨0, "alice", "user", ("hi").toList, some (mkRat 1 10), 0⟩ : Row).user ≠ "bob" :=
  ⟨by decide, by decide,
    claim_C6_user_isolation
      [("alice", "user", ("hi").toList, some (mkRat 1 10)),
       ("bob", "user", ("yo").toList, none)]
      "alice" "bob" 5 _ (by decide) (by decide)⟩

/-- C9: every processed turn appends exactly two rows, first the user row
carrying the compound score (written before the crisis check), then the
bot row carrying a null score; this holds for crisis turns as well. -/
theorem claim_C9_turn_rows (scorer : Text → ℚ) (ch : Choices) (db : List Row)
    (u : String) (text : Text) :
    ∃ bt : Text,
      (sendHandler scorer ch db u text).db =
        db ++ [⟨db.length, u, "user", text, some (sentiment_scores scorer text), db.length⟩,
          ⟨db.length + 1, u, "bot", bt, none, db.length + 1⟩] ∧
      bt = (sendHandler scorer ch db u text).bot_text :=
  ⟨(sendHandler scorer ch db u text).bot_text, sendHandler_rows scorer ch db u text, rfl⟩

/-- C7: all keyword matching and scoring happens on the normalized text
(`preprocess`), while the stored user row keeps the original text. -/
theorem claim_C7_normalization (scorer : Text → ℚ) (ch : Choices) (db : List Row)
    (u : String) (text : Text) :
    contains_crisis text = contains_crisis_norm (preprocess text) ∧
    extract_tags text = extract_tags_norm (preprocess text) ∧
    sentiment_scores scorer text = scorer (preprocess text) ∧
    ((sendHandler scorer ch db u text).db[db.length]?).map Row.text = some text ∧
    ((sendHandler scorer ch db u text).db[db.length]?).map Row.compound =
      some (some (scorer (preprocess text))) := by
  refine ⟨rfl, rfl, rfl, ?_, ?_⟩ <;>
  · rw [sendHandler_rows, List.getElem?_append_right (le_refl db.length)]
    simp [sentiment_scores]

/-- C1: if the normalized text contains a crisis phrase as a word-bounded
match or the compound score is ≤ -0.85, the reply is exactly the fixed
crisis message, for every choice of reply templates — the sentiment-bucket
branch is never consulted. -/
theorem claim_C1_crisis_override (scorer : Text → ℚ) (ch : Choices) (db : List Row)
    (u : String) (text : Text)
    (h : contains_crisis text = true ∨ sentiment_scores scorer text ≤ mkRat (-85) 100) :
    (sendHandler scorer ch db u text).bot_text = CRISIS_MESSAGE ∧
    ∀ ch₂ : Choices, (sendHandler scorer ch₂ db u text).bot_text = CRISIS_MESSAGE := by
  have hall : ∀ ch₂ : Choices, (sendHandler scorer ch₂ db u text).bot_text = CRISIS_MESSAGE := by
    intro ch₂
    simp [sendHandler, h]
  exact ⟨hall ch, hall⟩

theorem claim_C1_witness :
    (contains_crisis (("I want to end my life").toList) = true ∨
      sentiment_scores (fun _ => mkRat 0 1) (("I want to end my life").toList) ≤ mkRat (-85) 100) ∧
    (sendHandler (fun _ => mkRat 0 1) ⟨0, 0, 0, 0⟩ [] "Guest"
      (("I want to end my life").toList)).bot_text = CRISIS_MESSAGE :=
  ⟨Or.inl (by decide),
    (claim_C1_crisis_override (fun _ => mkRat 0 1) ⟨0, 0, 0, 0⟩ [] "Guest"
      (("I want to end my life").toList) (Or.inl (by decide))).1⟩

theorem pick_response_neg_mem (ch : Choices) :
    pick_response "negative" ch ∈ NEGATIVE_RESPONSES := by
  unfold pick_response
  rw [if_neg (by decide), if_neg (by decide)]
  exact List.get_mem _ _ _

theorem pick_response_neu_mem (ch : Choices) :
    pick_response "neutral" ch ∈ NEUTRAL_RESPONSES := by
  unfold pick_response
  rw [if_neg (by decide), if_pos rfl]
  exact List.get_mem _ _ _

theorem get_coping_tip_mem (ch : Choices) : get_coping_tip ch ∈ COPING_TIPS := by
  unfold get_coping_tip
  exact List.get_mem _ _ _

/-- C3: in a non-crisis turn, a negative bucket appends exactly a coping
tip to a negative-pool template, a neutral bucket with tags appends exactly
the tag sentence to a neutral-pool template, and a positive bucket or a
tag-less neutral bucket appends nothing — at most one suffix, never both. -/
theorem claim_C3_reply_suffix (scorer : Text → ℚ) (ch : Choices) (db : List Row)
    (u : String) (text : Text)
    (h : ¬(contains_crisis text = true ∨ sentiment_scores scorer text ≤ mkRat (-85) 100)) :
    (bucket (sentiment_scores scorer text) = "negative" →
      (sendHandler scorer ch db u text).bot_text =
        pick_response "negative" ch ++ (" Tip: ").toList ++ get_coping_tip ch ∧
      pick_response "negative" ch ∈ NEGATIVE_RESPONSES ∧
      get_coping_tip ch ∈ COPING_TIPS) ∧
    (bucket (sentiment_scores scorer text) = "neutral" → extract_tags text ≠ [] →
      (sendHandler scorer ch db u text).bot_text =
        pick_response "neutral" ch ++ tagSuffix (extract_tags text) ∧
      pick_response "neutral" ch ∈ NEUTRAL_RESPONSES) ∧
    (bucket (sentiment_scores scorer text) = "positive" ∨
        (bucket (sentiment_scores scorer text) = "neutral" ∧ extract_tags text = []) →
      (sendHandler scorer ch db u text).bot_text =
        pick_response (bucket (sentiment_scores scorer text)) ch) := by
  have hbot : (sendHandler scorer ch db u text).bot_text =
      (if bucket (sentiment_scores scorer text) = "negative" then
        pick_response (bucket (sentiment_scores scorer text)) ch
          ++ (" Tip: ").toList ++ get_coping_tip ch
      else if bucket (sentiment_scores scorer text) = "neutral" ∧ extract_tags text ≠ [] then
        pick_response (bucket (sentiment_scores scorer text)) ch
          ++ tagSuffix (extract_tags text)
      else pick_response (bucket (sentiment_scores scorer text)) ch) := by
    simp only [sendHandler]
    rw [if_neg h]
  refine ⟨?_, ?_, ?_⟩
  · intro hneg
    rw [hbot, hneg, if_pos rfl]
    exact ⟨rfl, pick_response_neg_mem ch, get_coping_tip_mem ch⟩
  · intro hneu htags
    rw [hbot, hneu, if_neg (by decide), if_pos ⟨rfl, htags⟩]
    exact ⟨rfl, pick_response_neu_mem ch⟩
  · rintro (hpos | ⟨hneu, htags⟩)
    · rw [hbot, hpos, if_neg (by decide), if_neg (by simp)]
    · rw [hbot, hneu, htags, if_neg (by decide), if_neg (by simp)]

theorem claim_C3_witness :
    (¬(contains_crisis (("I feel so stressed about my exam tomorrow").toList) = true ∨
      sentiment_scores (fun _ => mkRat (-2) 10)
        (("I feel so stressed about my exam tomorrow").toList) ≤ mkRat (-85) 100)) ∧
    bucket (sentiment_scores (fun _ => mkRat (-2) 10)
      (("I feel so stressed about my exam tomorrow").toList)) = "negative" ∧
    (sendHandler (fun _ => mkRat (-2) 10) ⟨0, 0, 0, 0⟩ [] "Guest"
        (("I feel so stressed about my exam tomorrow").toList)).bot_text =
      pick_response "negative" ⟨0, 0, 0, 0⟩ ++ (" Tip: ").toList
        ++ get_coping_tip ⟨0, 0, 0, 0⟩ :=
  ⟨by decide, by decide,
    (((claim_C3_reply_suffix (fun _ => mkRat (-2) 10) ⟨0, 0, 0, 0⟩ [] "Guest"
      (("I feel so stressed about my exam tomorrow").toList) (by decide)).1) (by decide)).1⟩

/-- C8: classification is total (every input yields a result), the bucket
is always one of the three strings, and the empty string yields no tags,
no crisis flag, and — when the scorer returns 0 on empty text — the
neutral bucket with a bare neutral template as reply. -/
theorem claim_C8_totality (scorer : Text → ℚ) (ch : Choices) (db : List Row)
    (u : String) :
    (∀ text : Text, ∃ res : TurnResult, sendHandler scorer ch db u text = res) ∧
    (∀ s : ℚ, bucket s = "positive" ∨ bucket s = "negative" ∨ bucket s = "neutral") ∧
    extract_tags ([] : Text) = [] ∧
    contains_crisis ([] : Text) = false ∧
    (scorer (preprocess ([] : Text)) = 0 →
      bucket (sentiment_scores scorer ([] : Text)) = "neutral" ∧
      (sendHandler scorer ch db u ([] : Text)).bot_text = pick_response "neutral" ch) := by
  refine ⟨fun text => ⟨_, rfl⟩, ?_, by decide, by decide, ?_⟩
  · intro s
    unfold bucket
    by_cases h1 : s ≥ mkRat 5 100
    · rw [if_pos h1]
      exact Or.inl rfl
    · rw [if_neg h1]
      by_cases h2 : s ≤ mkRat (-5) 100
      · rw [if_pos h2]
        exact Or.inr (Or.inl rfl)
      · rw [if_neg h2]
        exact Or.inr (Or.inr rfl)
  · intro h0
    have hb : bucket (sentiment_scores scorer ([] : Text)) = "neutral" := by
      show bucket (scorer (preprocess ([] : Text))) = "neutral"
      rw [h0]
      decide
    refine ⟨hb, ?_⟩
    have hnc : ¬(contains_crisis ([] : Text) = true ∨
        sentiment_scores scorer ([] : Text) ≤ mkRat (-85) 100) := by
      rintro (hcr | hle)
      · exact absurd hcr (by decide)
      · rw [show sentiment_scores scorer ([] : Text) = (0 : ℚ) from h0] at hle
        exact absurd hle (by decide)
    have htag : extract_tags ([] : Text) = [] := by decide
    simp only [sendHandler]
    rw [if_neg hnc, hb, htag, if_neg (by decide), if_neg (by simp)]

theorem claim_C8_witness :
    ((fun _ : Text => (0 : ℚ)) (preprocess ([] : Text)) = 0) ∧
    (sendHandler (fun _ : Text => (0 : ℚ)) ⟨0, 0, 0, 0⟩ [] "Guest" ([] : Text)).bot_text
      = pick_response "neutral" ⟨0, 0, 0, 0⟩ :=
  ⟨rfl, ((claim_C8_totality (fun _ : Text => (0 : ℚ)) ⟨0, 0, 0, 0⟩ [] "Guest").2.2.2.2 rfl).2⟩
